import Mathlib

/-!
Verification of the persistence/migration logic of the HVAC schedule
service (`app_simple.py`).

The program stores a JSON document in a flat file.  We embed JSON values
as an inductive type (`JSON`), objects as ordered association lists
(matching Python dict insertion order), and a file on disk as either
absent, malformed (unparseable), or holding a parsed JSON value
(`FileData`).  `save` followed by a parse returns the saved value
(serialization formatting/whitespace is not modelled, as permitted by the
round-trip property which ignores it).  Each operation of the program is
a pure function from file state to (result, new file state).
-/

namespace AppSimple

/-- A JSON value.  Objects are ordered association lists, faithful to
Python's insertion-ordered dicts; numbers are rationals (exact for the
literals appearing in the program). -/
inductive JSON where
  | null : JSON
  | bool (b : Bool) : JSON
  | num (q : Rat) : JSON
  | str (s : String) : JSON
  | arr (xs : List JSON) : JSON
  | obj (fields : List (String × JSON)) : JSON

/-- Python `k in d` on a dict modelled as an association list. -/
def hasKey (fields : List (String × JSON)) (k : String) : Bool :=
  fields.any (fun p => p.1 == k)

/-- Python `d[k] = v`: replace the value in place when the key exists
(position preserved), otherwise append the pair at the end. -/
def setKey (fields : List (String × JSON)) (k : String) (v : JSON) :
    List (String × JSON) :=
  if hasKey fields k then
    fields.map (fun p => if p.1 == k then (k, v) else p)
  else
    fields ++ [(k, v)]

/-- Python `d[k]` lookup, as an `Option`. -/
def getKey (fields : List (String × JSON)) (k : String) : Option JSON :=
  (fields.find? (fun p => p.1 == k)).map Prod.snd

/-- Field lookup on a JSON value; `none` on non-objects. -/
def getField (d : JSON) (k : String) : Option JSON :=
  match d with
  | JSON.obj fields => getKey fields k
  | _ => none

/-- The state of one file on disk. -/
inductive FileData where
  | absent : FileData
  | malformed : FileData
  | json (v : JSON) : FileData

/-- The error `load_schedules` can propagate: `json.load` raising on an
existing but unparseable file (Python `json.JSONDecodeError`). -/
inductive LoadError where
  | parseError : LoadError

/-- The fixed placeholder timestamp written by `load_schedules` in both
the legacy-migration branch (lines 33-34) and the default document
(lines 65-66). -/
def placeholderTimestamp : String := "2025-07-25T21:30:00.000000"

/-- The metadata object built in the legacy-migration branch of
`load_schedules` (lines 31-35). -/
def legacyMetadata : JSON :=
  JSON.obj [("version", JSON.str "1.0"),
            ("created_at", JSON.str placeholderTimestamp),
            ("updated_at", JSON.str placeholderTimestamp)]

/-- The inlined shape handling of `load_schedules` (lines 24-37): a dict
without `schedules` but with `event_name` is a legacy single schedule and
is wrapped; everything else is returned unchanged. -/
def normalize (content : JSON) : JSON :=
  match content with
  | JSON.obj fields =>
      if hasKey fields "schedules" then JSON.obj fields
      else if hasKey fields "event_name" then
        JSON.obj [("schedules",
                    JSON.arr [JSON.obj (setKey fields "id" (JSON.str "1"))]),
                  ("metadata", legacyMetadata)]
      else JSON.obj fields
  | v => v

/-- Whether `load_schedules` treats a raw value as a legacy
single-schedule document. -/
def isLegacy (d : JSON) : Bool :=
  match d with
  | JSON.obj fields => !hasKey fields "schedules" && hasKey fields "event_name"
  | _ => false

/-- The default "Unoccupied" schedule synthesized by `load_schedules`
when the file is absent (lines 42-61). -/
def defaultSchedule : JSON :=
  JSON.obj [("id", JSON.str "unoccupied-default"),
            ("event_name", JSON.str "Unoccupied"),
            ("schedule_type", JSON.str "thermostat"),
            ("repeat_frequency", JSON.str "daily"),
            ("time_setting", JSON.str "all_day"),
            ("start_time", JSON.null),
            ("end_time", JSON.null),
            ("settings",
              JSON.obj [("system_mode", JSON.str "Heat"),
                        ("heat_setpoint", JSON.str "65"),
                        ("cool_setpoint", JSON.str "78"),
                        ("fan", JSON.str "auto"),
                        ("humidity_setpoint", JSON.str "45"),
                        ("ventilation_rate", JSON.str "0")]),
            ("days_of_week", JSON.arr []),
            ("is_default", JSON.bool true),
            ("exclude_dates", JSON.arr [])]

/-- The metadata literal of the default document (lines 63-67). -/
def defaultMetadata : JSON :=
  JSON.obj [("version", JSON.str "1.0"),
            ("created_at", JSON.str "2025-07-25T21:30:00.000000"),
            ("updated_at", JSON.str "2025-07-25T21:30:00.000000")]

/-- The full default document `default_data` (lines 40-68). -/
def defaultData : JSON :=
  JSON.obj [("schedules", JSON.arr [defaultSchedule]),
            ("metadata", defaultMetadata)]

/-- `save_schedules` (lines 72-75): serializes `data` and overwrites the
file in full; the file afterwards parses back to `data`. -/
def save_schedules (data : JSON) (_file : FileData) : FileData :=
  FileData.json data

/-- `load_schedules` (lines 18-70) as a function on the schedules file
state, returning the result (or propagated error) and the file state
afterwards.  Missing file: synthesize `defaultData`, persist it via
`save_schedules`, return it.  Malformed file: `json.load` raises before
any shape handling, and `FileNotFoundError` is the only exception caught,
so the error propagates and no write happens.  Parsed file: apply the
inlined shape handling (`normalize`); no write happens. -/
def load_schedules (file : FileData) : Except LoadError JSON × FileData :=
  match file with
  | FileData.absent =>
      (Except.ok defaultData, save_schedules defaultData FileData.absent)
  | FileData.malformed => (Except.error LoadError.parseError, FileData.malformed)
  | FileData.json v => (Except.ok (normalize v), FileData.json v)

/-- The POST handler `save_schedules_data` (lines 92-101): parses the
request body and persists it verbatim via `save_schedules` — no
normalization, validation, or merge. -/
def save_schedules_data (data : JSON) (file : FileData) : FileData :=
  save_schedules data file

/-- Reading the file back directly (a parse with no shape handling),
used to state that `save_schedules_data` writes its input verbatim. -/
def rawRead (file : FileData) : Option JSON :=
  match file with
  | FileData.json v => some v
  | _ => none

/-- The hardcoded default device configuration of `get_device_config`
(lines 112-119). -/
def defaultDeviceConfig : JSON :=
  JSON.obj [("device",
    JSON.obj [("timezone", JSON.str "America/New_York"),
              ("location",
                JSON.obj [("name", JSON.str "Default Location"),
                          ("latitude", JSON.num ((407128 : Rat) / 10000)),
                          ("longitude", JSON.num ((-740060 : Rat) / 10000))]),
              ("id", JSON.str "hvac-device-default"),
              ("name", JSON.str "HVAC Controller")])]

/-- Result of the device-config route: the parsed or default
configuration, or the generic failure response (lines 121-123). -/
inductive ConfigResult where
  | ok (v : JSON) : ConfigResult
  | failure : ConfigResult

/-- `get_device_config` (lines 103-123) as a function on the device
config file state: parsed content on success, hardcoded default on
`FileNotFoundError` (with no write), generic failure otherwise. -/
def get_device_config (file : FileData) : ConfigResult × FileData :=
  match file with
  | FileData.json v => (ConfigResult.ok v, FileData.json v)
  | FileData.absent => (ConfigResult.ok defaultDeviceConfig, FileData.absent)
  | FileData.malformed => (ConfigResult.failure, FileData.malformed)

/-! ## Helper lemmas -/

theorem find_map_set (fields : List (String × JSON)) (k : String) (v : JSON)
    (h : hasKey fields k = true) :
    (fields.map (fun p => if p.1 == k then (k, v) else p)).find?
      (fun p => p.1 == k) = some (k, v) := by
  induction fields with
  | nil => simp [hasKey] at h
  | cons hd tl ih =>
    simp only [List.map_cons]
    by_cases hk : (hd.1 == k) = true
    · rw [if_pos hk, List.find?_cons_of_pos _ (by simp)]
    · have hk' : (hd.1 == k) = false := by simpa using hk
      have h' : hasKey tl k = true := by simpa [hasKey, hk'] using h
      rw [if_neg hk, List.find?_cons_of_neg _ (by simpa using hk)]
      exact ih h'

theorem find_append_missing (fields : List (String × JSON)) (k : String)
    (v : JSON) (h : hasKey fields k = false) :
    (fields ++ [(k, v)]).find? (fun p => p.1 == k) = some (k, v) := by
  induction fields with
  | nil => simp
  | cons hd tl ih =>
    have hs := h
    simp [hasKey] at hs
    have hk : (hd.1 == k) = false := by simpa using hs.1
    have h' : hasKey tl k = false := by
      simp [hasKey]
      exact hs.2
    rw [List.cons_append, List.find?_cons_of_neg _ (by simpa using hk)]
    exact ih h'

theorem getKey_setKey (fields : List (String × JSON)) (k : String) (v : JSON) :
    getKey (setKey fields k v) k = some v := by
  unfold getKey setKey
  by_cases h : hasKey fields k
  · rw [if_pos h, find_map_set fields k v h]
    rfl
  · rw [if_neg h, find_append_missing fields k v (by simpa using h)]
    rfl

/-! ## Claim theorems -/

/-- C1: For every raw JSON value `d` that is a mapping, does not contain
the key `schedules`, and contains the key `event_name`, `load_schedules`
on a file holding `d` returns a document whose `schedules` field is the
one-element list `[d with id set to "1"]` and whose `metadata` field is
`{version: "1.0", created_at: "2025-07-25T21:30:00.000000",
updated_at: "2025-07-25T21:30:00.000000"}`. -/
theorem load_legacy_wraps (fields : List (String × JSON))
    (hns : hasKey fields "schedules" = false)
    (hev : hasKey fields "event_name" = true) :
    (load_schedules (FileData.json (JSON.obj fields))).1 =
      Except.ok (JSON.obj
        [("schedules",
           JSON.arr [JSON.obj (setKey fields "id" (JSON.str "1"))]),
         ("metadata",
           JSON.obj [("version", JSON.str "1.0"),
                     ("created_at", JSON.str "2025-07-25T21:30:00.000000"),
                     ("updated_at", JSON.str "2025-07-25T21:30:00.000000")])]) := by
  simp [load_schedules, normalize, hns, hev, legacyMetadata, placeholderTimestamp]

/-- Witness for C1 at the concrete legacy input
`{"event_name": "Morning"}`. -/
theorem load_legacy_wraps_witness :
    hasKey [("event_name", JSON.str "Morning")] "schedules" = false ∧
    hasKey [("event_name", JSON.str "Morning")] "event_name" = true ∧
    (load_schedules (FileData.json
        (JSON.obj [("event_name", JSON.str "Morning")]))).1 =
      Except.ok (JSON.obj
        [("schedules",
           JSON.arr [JSON.obj [("event_name", JSON.str "Morning"),
                               ("id", JSON.str "1")]]),
         ("metadata",
           JSON.obj [("version", JSON.str "1.0"),
                     ("created_at", JSON.str "2025-07-25T21:30:00.000000"),
                     ("updated_at", JSON.str "2025-07-25T21:30:00.000000")])]) :=
  ⟨rfl, rfl, load_legacy_wraps [("event_name", JSON.str "Morning")] rfl rfl⟩

/-- C2: `load_schedules` on an absent file returns a document with
exactly one schedule, whose id is `"unoccupied-default"` and whose
`is_default` flag is true, persists that same document to the file, and
an immediately subsequent load on the resulting file state returns an
equal document. -/
theorem load_missing_creates_default :
    (load_schedules FileData.absent).1 = Except.ok defaultData ∧
    getField defaultData "schedules" = some (JSON.arr [defaultSchedule]) ∧
    getField defaultSchedule "id" = some (JSON.str "unoccupied-default") ∧
    getField defaultSchedule "is_default" = some (JSON.bool true) ∧
    (load_schedules FileData.absent).2 = FileData.json defaultData ∧
    (load_schedules (load_schedules FileData.absent).2).1 =
      Except.ok defaultData := by
  refine ⟨rfl, ?_, ?_, ?_, rfl, ?_⟩ <;> rfl

/-- C3: For every raw JSON value `d` that is not a legacy
single-schedule mapping (it already contains `schedules`, or is a
mapping containing neither `schedules` nor `event_name`, or is not a
mapping at all), `load_schedules` returns `d` unchanged: `normalize` is
the identity on all non-legacy shapes. -/
theorem load_non_legacy_identity (d : JSON) (h : isLegacy d = false) :
    (load_schedules (FileData.json d)).1 = Except.ok d := by
  cases d with
  | obj fields =>
      by_cases hs : hasKey fields "schedules" = true
      · simp [load_schedules, normalize, hs]
      · have hs' : hasKey fields "schedules" = false := by simpa using hs
        have he : hasKey fields "event_name" = false := by
          simpa [isLegacy, hs'] using h
        simp [load_schedules, normalize, hs', he]
  | null => rfl
  | bool b => rfl
  | num q => rfl
  | str s => rfl
  | arr xs => rfl

/-- Witness for C3 at the concrete non-legacy input
`{"schedules": []}`. -/
theorem load_non_legacy_identity_witness :
    isLegacy (JSON.obj [("schedules", JSON.arr [])]) = false ∧
    (load_schedules (FileData.json
        (JSON.obj [("schedules", JSON.arr [])]))).1 =
      Except.ok (JSON.obj [("schedules", JSON.arr [])]) :=
  ⟨rfl, load_non_legacy_identity (JSON.obj [("schedules", JSON.arr [])]) rfl⟩

/-- C4: Save/load round-trip: for every valid document (a mapping
containing the key `schedules`) and every prior file state, saving and
then loading yields the same document (formatting whitespace is not
modelled; parsing a saved value returns the value). -/
theorem save_load_roundtrip (fields : List (String × JSON))
    (file : FileData) (h : hasKey fields "schedules" = true) :
    (load_schedules (save_schedules (JSON.obj fields) file)).1 =
      Except.ok (JSON.obj fields) := by
  simp [load_schedules, save_schedules, normalize, h]

/-- Witness for C4 at the concrete document `{"schedules": []}` saved
over an absent file. -/
theorem save_load_roundtrip_witness :
    hasKey [("schedules", JSON.arr [])] "schedules" = true ∧
    (load_schedules (save_schedules
        (JSON.obj [("schedules", JSON.arr [])]) FileData.absent)).1 =
      Except.ok (JSON.obj [("schedules", JSON.arr [])]) :=
  ⟨rfl, save_load_roundtrip [("schedules", JSON.arr [])] FileData.absent rfl⟩

/-- C5: `save_schedules_data` performs no normalization, validation, or
merge: for every JSON value `d` (legacy-shaped mappings included) and
every prior file state, it writes `d` verbatim, and reading the file
back without the load/normalize path yields `d` unchanged. -/
theorem replace_all_verbatim (d : JSON) (file : FileData) :
    save_schedules_data d file = FileData.json d ∧
    rawRead (save_schedules_data d file) = some d :=
  ⟨rfl, rfl⟩

/-- C6: For every file that exists and parses as JSON, the load path
performs no write: the file state after `load_schedules` is unchanged
(the legacy upgrade is not written back); the same holds for a malformed
existing file, so the only write in the read path is the
default-document creation on an absent file. -/
theorem load_existing_no_write (v : JSON) :
    (load_schedules (FileData.json v)).2 = FileData.json v ∧
    (load_schedules FileData.malformed).2 = FileData.malformed :=
  ⟨rfl, rfl⟩

/-- C7: If the file exists but is malformed, `load_schedules` propagates
a parse error to its caller rather than recovering or substituting a
default, and the missing-file default-synthesis branch is not taken (the
file is left unchanged, and the result is not the default document). -/
theorem load_malformed_raises :
    (load_schedules FileData.malformed).1 =
      Except.error LoadError.parseError ∧
    (load_schedules FileData.malformed).2 = FileData.malformed ∧
    (load_schedules FileData.malformed).1 ≠ Except.ok defaultData := by
  refine ⟨rfl, rfl, ?_⟩
  intro hc
  exact Except.noConfusion hc

/-- C8: `get_device_config` on an absent configuration file returns the
hardcoded default configuration, whose `device.timezone` is
`"America/New_York"`, and writes nothing: the configuration file is
still absent after the call. -/
theorem device_config_missing_default :
    (get_device_config FileData.absent).1 =
      ConfigResult.ok defaultDeviceConfig ∧
    ((getField defaultDeviceConfig "device").bind
        (fun d => getField d "timezone")) =
      some (JSON.str "America/New_York") ∧
    (get_device_config FileData.absent).2 = FileData.absent := by
  refine ⟨rfl, ?_, rfl⟩
  rfl

/-- C9: The metadata timestamps of the default document synthesized on
a missing file are both the fixed constant
`"2025-07-25T21:30:00.000000"`, identical to the legacy-migration
placeholder; they are constants of the program, never derived from a
clock, and `load_schedules` is a (deterministic) function of the file
state alone, here evaluated on the absent-file state. -/
theorem default_timestamps_fixed :
    getField defaultMetadata "created_at" =
      some (JSON.str "2025-07-25T21:30:00.000000") ∧
    getField defaultMetadata "updated_at" =
      some (JSON.str "2025-07-25T21:30:00.000000") ∧
    defaultMetadata = legacyMetadata ∧
    getField defaultMetadata "created_at" =
      getField legacyMetadata "updated_at" ∧
    (load_schedules FileData.absent).1.toOption.bind
        (fun d => getField d "metadata") = some defaultMetadata := by
  refine ⟨?_, ?_, ?_, ?_, ?_⟩ <;> rfl

/-- C10: When a legacy single-schedule mapping is normalized, the `id`
field of the single schedule in the output is exactly `"1"`, regardless
of any pre-existing `id` field in the input (a pre-existing value is
overwritten and discarded). -/
theorem legacy_id_overwritten (fields : List (String × JSON))
    (hns : hasKey fields "schedules" = false)
    (hev : hasKey fields "event_name" = true) :
    ∃ sched : List (String × JSON),
      (load_schedules (FileData.json (JSON.obj fields))).1 =
        Except.ok (JSON.obj
          [("schedules", JSON.arr [JSON.obj sched]),
           ("metadata", legacyMetadata)]) ∧
      getKey sched "id" = some (JSON.str "1") := by
  refine ⟨setKey fields "id" (JSON.str "1"), ?_, getKey_setKey fields "id" (JSON.str "1")⟩
  simp [load_schedules, normalize, hns, hev]

/-- Witness for C10 at the concrete legacy input
`{"id": "seven", "event_name": "Morning"}`, whose pre-existing id
`"seven"` is overwritten with `"1"`. -/
theorem legacy_id_overwritten_witness :
    hasKey [("id", JSON.str "seven"), ("event_name", JSON.str "Morning")]
      "schedules" = false ∧
    hasKey [("id", JSON.str "seven"), ("event_name", JSON.str "Morning")]
      "event_name" = true ∧
    ∃ sched : List (String × JSON),
      (load_schedules (FileData.json (JSON.obj
          [("id", JSON.str "seven"),
           ("event_name", JSON.str "Morning")]))).1 =
        Except.ok (JSON.obj
          [("schedules", JSON.arr [JSON.obj sched]),
           ("metadata", legacyMetadata)]) ∧
      getKey sched "id" = some (JSON.str "1") :=
  ⟨rfl, rfl,
    legacy_id_overwritten
      [("id", JSON.str "seven"), ("event_name", JSON.str "Morning")] rfl rfl⟩

end AppSimple
